import Mathlib

/-!
Verification of the invoice/stock/aggregation engine of the
nisa_world_backend repository (FastAPI + relational store).

Modelling conventions:
* Python `float` money amounts are modelled exactly as rationals; `round(x, 2)`
  is modelled as rounding to a multiple of 1/100 (on amounts that are exact
  multiples of 1/100 — the only ones the claims exercise — every tie-breaking
  rule agrees, so the float/rational gap is immaterial).
* Python `int` is modelled as `Int`; database rows are lists of records, with
  `find_unique`/`find_first` modelled as `List.find?` and `update where id`
  as a map over the rows with that id (ids are unique in the store).
* The pydantic request models (`SalesCreate`, `BulkSalesCreate`,
  `SalesUpdate`, `ExpenseCreate`, `BulkExpenseCreate`) define no
  `entry_date` field, yet every sale/expense write endpoint reads one while
  building its insert/update payload.  That attribute access raises
  `AttributeError`, caught by the blanket handler and surfaced as HTTP 500
  (`ApiError.internalError` here) before the insert or update executes, so
  those write paths never persist a row, never debit stock, and never
  commit an update.  The delete endpoints and all read/aggregation paths do
  not touch `entry_date` on a request model and work as written.
* A raised exception is modelled as an `Except.error` paired with the store
  state at the moment of the raise (mutations already applied remain).
-/

namespace NisaWorld

/-- Error taxonomy of the endpoints: HTTP 400 validation, 404, 400
insufficient-stock, 403, and the HTTP 500 produced when an endpoint reads
the `entry_date` attribute its request model does not define
(`AttributeError` re-raised by the blanket exception handler). -/
inductive ApiError where
  | validationError
  | notFound
  | insufficientStock
  | permissionDenied
  | internalError
deriving DecidableEq, Repr

/-- Money amounts (Python floats holding currency values), modelled exactly. -/
abbrev Money := ℚ

/-- A calendar instant, kept at year/month granularity: the report queries
only compare `created_at` against month boundaries. -/
structure DateYM where
  year : Int
  mon : Int
deriving DecidableEq, Repr

/-- `a ≤ b` on calendar instants (lexicographic on year, month). -/
def dateLe (a b : DateYM) : Bool :=
  a.year < b.year || (a.year == b.year && a.mon ≤ b.mon)

/-- `a < b` on calendar instants (lexicographic on year, month). -/
def dateLt (a b : DateYM) : Bool :=
  a.year < b.year || (a.year == b.year && a.mon < b.mon)

/-- An inventory row (`inventory` table). -/
structure Product where
  id : Int
  product_name : String
  category : String
  cost_price : Money
  quantity : Int
deriving DecidableEq, Repr

/-- A sales line-item row (`sales` table). -/
structure Sale where
  id : Int
  invoice_no : Option String
  customer_name : String
  customer_address : String
  customer_phone : String
  product_name : String
  category : String
  quantity : Int
  cost_price : Money
  sale_price : Money
  entry_date : String
  payment_type : String
  advance_amount : Money
  sold_by : String
  edited : Bool
  created_at : DateYM
deriving DecidableEq, Repr

/-- An expense row (`expenses` table); `material_name` stores the
concatenated "material - vendor" string. -/
structure Expense where
  id : Int
  invoice_no : Option String
  material_name : String
  amount : Money
  payment_method : String
  advance_amount : Money
  entry_date : String
  used : Bool
  description : Option String
  added_by : String
  edited : Bool
  created_at : DateYM
deriving DecidableEq, Repr

/-- The authenticated principal (`UserResponse`: `id` is a string). -/
structure User where
  id : String
  name : String
  role : String
deriving DecidableEq, Repr

/-- The relational store plus the `invoice_seq` sequence and the row-id
counter. `invSeq` is the value the next `nextval('invoice_seq')` returns. -/
structure DB where
  invSeq : Nat
  nextId : Int
  inventory : List Product
  sales : List Sale
  expenses : List Expense
deriving DecidableEq, Repr

/-- `db.inventory.find_unique(where={"id": pid})`. -/
def findProduct (inv : List Product) (pid : Int) : Option Product :=
  inv.find? (fun p => p.id == pid)

/-- `db.inventory.update(where={"id": pid}, data={"quantity": q})`. -/
def updateProductQty (inv : List Product) (pid : Int) (q : Int) : List Product :=
  inv.map (fun p => if p.id == pid then { p with quantity := q } else p)

/-- On-hand quantity of product `pid` (0 when the row is absent). -/
def invQty (inv : List Product) (pid : Int) : Int :=
  match findProduct inv pid with
  | some p => p.quantity
  | none => 0

/-- `str(n).zfill(6)`. -/
def zfill6 (n : Nat) : String :=
  let s := toString n
  String.mk (List.replicate (6 - s.length) '0') ++ s

/-- `f"INV-{str(next_val).zfill(6)}"`. -/
def fmtInvoice (n : Nat) : String :=
  "INV-" ++ zfill6 n

/-- `SalesCreate` request model (schemas.py:160-168); it defines no
`entry_date` field although the endpoint reads one. -/
structure SalesCreate where
  customer_name : String
  customer_address : String
  customer_phone : String
  product_id : Int
  quantity : Int
  sale_price : Money
  payment_type : String
  advance_amount : Money
deriving DecidableEq, Repr

/-- One item of a bulk sale (`SaleItem`). -/
structure SaleItem where
  product_id : Int
  quantity : Int
  sale_price : Money
deriving DecidableEq, Repr

/-- `BulkSalesCreate` request model (schemas.py:209-215); it defines no
`entry_date` field although the endpoints read one. -/
structure BulkSalesCreate where
  customer_name : String
  customer_address : String
  customer_phone : String
  payment_type : String
  advance_amount : Money
  items : List SaleItem
deriving DecidableEq, Repr

/-- `SalesUpdate` request model (all-optional, schemas.py:192-199); it
defines no `entry_date` field although the endpoint reads one. -/
structure SalesUpdate where
  customer_name : Option String
  customer_address : Option String
  customer_phone : Option String
  quantity : Option Int
  sale_price : Option Money
  payment_type : Option String
  advance_amount : Option Money
deriving DecidableEq, Repr

/-- `POST /sales/` (`create_sale`): look the product up and reject when
on-hand is below the requested quantity; otherwise the endpoint evaluates
`sale.entry_date` while building the insert payload (sales.py:59), which
`SalesCreate` does not define, so it raises before `db.sales.create` and
before the inventory debit — no row is persisted and no stock changes. -/
def createSale (_u : User) (_now : DateYM) (req : SalesCreate) (db : DB) :
    Except ApiError Sale × DB :=
  match findProduct db.inventory req.product_id with
  | none => (.error .notFound, db)
  | some product =>
    if product.quantity < req.quantity then (.error .insufficientStock, db)
    else (.error .internalError, db)

/-- Per-item validation of `create_bulk_sale`: invalid product id, quantity
or price. -/
def bulkItemBad (it : SaleItem) : Bool :=
  it.product_id ≤ 0 || it.quantity ≤ 0 || it.sale_price ≤ 0

/-- The per-item loop shared by `create_bulk_sale` and
`add_sale_items_to_invoice`.  For the first item the loop looks the product
up and checks on-hand; if both pass, building the insert payload evaluates
`sale_data.entry_date` (sales.py:199 / 318), which `BulkSalesCreate` does
not define, so the loop raises before `db.sales.create` and before any
debit — items beyond the first are never examined, no row is persisted and
no stock changes. -/
def applySaleItems : List SaleItem → DB → Except ApiError (List Sale) × DB
  | [], db => (.ok [], db)
  | it :: _, db =>
    match findProduct db.inventory it.product_id with
    | none => (.error .notFound, db)
    | some product =>
      if product.quantity < it.quantity then (.error .insufficientStock, db)
      else (.error .internalError, db)

/-- `POST /sales/bulk` (`create_bulk_sale`): validate every item's fields,
allocate one invoice number (the sequence is consumed), then run the
per-item loop, which raises on its first insert attempt. -/
def createBulkSale (_u : User) (_now : DateYM) (data : BulkSalesCreate) (db : DB) :
    Except ApiError (List Sale) × DB :=
  if data.items.isEmpty then (.error .validationError, db)
  else if data.items.any bulkItemBad then (.error .validationError, db)
  else
    let db1 : DB := { db with invSeq := db.invSeq + 1 }
    applySaleItems data.items db1

/-- `POST /sales/invoice/{invoice_no}/items` (`add_sale_items_to_invoice`):
staff may append only when they already own a line of the invoice; past the
permission check the per-item loop raises on its first insert attempt. -/
def addSaleItemsToInvoice (invNo : String) (u : User) (_now : DateYM)
    (data : BulkSalesCreate) (db : DB) : Except ApiError (List Sale) × DB :=
  if data.items.isEmpty then (.error .validationError, db)
  else if u.role == "staff"
      && (db.sales.find? (fun s => s.invoice_no == some invNo && s.sold_by == u.id)).isNone then
    (.error .permissionDenied, db)
  else
    applySaleItems data.items db

/-- `PUT /sales/{sale_id}` (`update_sale`): admin may edit any sale, staff
only their own; past the permission check, building `update_data` evaluates
`sale.entry_date` (sales.py:408), which `SalesUpdate` does not define, so
the endpoint raises before `db.sales.update` — no sale row and no inventory
row is ever modified. -/
def updateSale (saleId : Int) (_upd : SalesUpdate) (u : User) (db : DB) :
    Except ApiError Sale × DB :=
  match db.sales.find? (fun s => s.id == saleId) with
  | none => (.error .notFound, db)
  | some existingSale =>
    if u.role != "admin" && existingSale.sold_by != u.id then
      (.error .permissionDenied, db)
    else (.error .internalError, db)

/-- `DELETE /sales/{sale_id}` (`delete_sale`): admin may delete any sale,
staff only their own; with `restore_inventory` the first product matching
the sale's denormalized (name, category) snapshot is credited. -/
def deleteSale (saleId : Int) (restoreInventory : Bool) (u : User) (db : DB) :
    Except ApiError Unit × DB :=
  match db.sales.find? (fun s => s.id == saleId) with
  | none => (.error .notFound, db)
  | some existingSale =>
    if u.role != "admin" && existingSale.sold_by != u.id then
      (.error .permissionDenied, db)
    else
      let db1 : DB :=
        if restoreInventory then
          match db.inventory.find? (fun p =>
              p.product_name == existingSale.product_name
                && p.category == existingSale.category) with
          | some product =>
            { db with inventory :=
                updateProductQty db.inventory product.id (product.quantity + existingSale.quantity) }
          | none => db
        else db
      (.ok (), { db1 with sales := db1.sales.filter (fun s => !(s.id == saleId)) })

/-- `ExpenseCreate` request model (schemas.py:220-225); it defines no
`entry_date` field although the endpoint reads one. -/
structure ExpenseCreate where
  material_name : String
  vendor_name : String
  amount : Money
  payment_method : String
  advance_amount : Money
deriving DecidableEq, Repr

/-- One item of a bulk expense (`ExpenseItem`). -/
structure ExpenseItem where
  material_name : String
  vendor_name : String
  amount : Money
deriving DecidableEq, Repr

/-- `BulkExpenseCreate` request model (schemas.py:235-238); it defines no
`entry_date` field although the endpoints read one. -/
structure BulkExpenseCreate where
  payment_method : String
  advance_amount : Money
  items : List ExpenseItem
deriving DecidableEq, Repr

/-- `f"{material_name} - {vendor_name}"`: the stored concatenation. -/
def combineMaterialName (m v : String) : String :=
  m ++ " - " ++ v

/-- The literal delimiter `" - "` as a character list. -/
def delim : List Char := [' ', '-', ' ']

/-- Split at the first occurrence of the delimiter, as Python's
`s.split(" - ", 1)` does; `none` when the delimiter does not occur
(Python's `" - " in s` is false). -/
def splitOnce : List Char → Option (List Char × List Char)
  | [] => none
  | c :: rest =>
    if delim.isPrefixOf (c :: rest) then some ([], (c :: rest).drop delim.length)
    else (splitOnce rest).map (fun p => (c :: p.1, p.2))

/-- The read-side split used by `get_expenses` (and the other expense
readers): split the stored string on the first `" - "`; when the delimiter
is absent the vendor is reported as "Unknown". -/
def splitMaterialName (s : String) : String × String :=
  match splitOnce s.toList with
  | some (m, v) => (String.mk m, String.mk v)
  | none => (s, "Unknown")

/-- `POST /expenses/` (`create_expense`): the endpoint computes the
concatenated material/vendor string, but building the insert payload
evaluates `expense.entry_date` (expenses.py:39), which `ExpenseCreate` does
not define, so it raises before `db.expenses.create` — no row is ever
persisted. -/
def createExpense (_u : User) (_now : DateYM) (_req : ExpenseCreate) (db : DB) :
    Except ApiError Expense × DB :=
  (.error .internalError, db)

/-- The per-item loop of the expense bulk/append endpoints: building the
first item's insert payload evaluates `expense_data.entry_date`
(expenses.py:145 / 242), which `BulkExpenseCreate` does not define, so the
loop raises on its first item and persists nothing. -/
def applyExpenseItems : List ExpenseItem → DB → Except ApiError (List Expense) × DB
  | [], db => (.ok [], db)
  | _ :: _, db => (.error .internalError, db)

/-- `POST /expenses/invoice/{invoice_no}/items` (`add_expense_items_to_invoice`):
staff may append only when they already own a line of the invoice; past the
permission check the per-item loop raises on its first insert attempt. -/
def addExpenseItemsToInvoice (invNo : String) (u : User) (_now : DateYM)
    (data : BulkExpenseCreate) (db : DB) : Except ApiError (List Expense) × DB :=
  if data.items.isEmpty then (.error .validationError, db)
  else if u.role == "staff"
      && (db.expenses.find? (fun e => e.invoice_no == some invNo && e.added_by == u.id)).isNone then
    (.error .permissionDenied, db)
  else
    applyExpenseItems data.items db

/-- Revenue of a list of sale rows: `sum(sale_price * quantity)`. -/
def revenueSum (l : List Sale) : Money :=
  (l.map (fun s => s.sale_price * (s.quantity : Money))).sum

/-- Cost of goods sold of a list of sale rows: `sum(cost_price * quantity)`. -/
def cogsSum (l : List Sale) : Money :=
  (l.map (fun s => s.cost_price * (s.quantity : Money))).sum

/-- Pending balance: over sales with `payment_type == "2"`,
`sum(sale_price * quantity - advance_amount)`. -/
def pendingSum (l : List Sale) : Money :=
  ((l.filter (fun s => s.payment_type == "2")).map
    (fun s => s.sale_price * (s.quantity : Money) - s.advance_amount)).sum

/-- Total of a list of expense rows: `sum(amount)`. -/
def expenseSum (l : List Expense) : Money :=
  (l.map (fun e => e.amount)).sum

/-- Inventory value: `sum(cost_price * quantity)` over all product rows. -/
def inventoryValue (inv : List Product) : Money :=
  (inv.map (fun p => p.cost_price * (p.quantity : Money))).sum

/-- The sale rows the dashboard aggregates for a principal: staff only their
own rows, everyone else all rows. -/
def visibleSales (u : User) (db : DB) : List Sale :=
  if u.role == "staff" then db.sales.filter (fun s => s.sold_by == u.id) else db.sales

/-- The expense rows the dashboard aggregates for a principal. -/
def visibleExpenses (u : User) (db : DB) : List Expense :=
  if u.role == "staff" then db.expenses.filter (fun e => e.added_by == u.id) else db.expenses

/-- The `DashboardStats` response model. -/
structure DashboardStats where
  total_sales : Money
  total_profit : Money
  total_expenses : Money
  total_pending : Money
  inventory_value : Money
  sales_count : Nat
  expenses_count : Nat
  inventory_count : Nat
deriving DecidableEq, Repr

/-- `GET /dashboard/stats` (`get_dashboard_stats`): sales/expense totals over
the role-scoped rows, profit = revenue − COGS − expenses, inventory value
over all product rows. -/
def getDashboardStats (u : User) (db : DB) : DashboardStats :=
  let salesData := visibleSales u db
  let expensesData := visibleExpenses u db
  { total_sales := revenueSum salesData
    total_profit := revenueSum salesData - cogsSum salesData - expenseSum expensesData
    total_expenses := expenseSum expensesData
    total_pending := pendingSum salesData
    inventory_value := inventoryValue db.inventory
    sales_count := salesData.length
    expenses_count := expensesData.length
    inventory_count := db.inventory.length }

/-- `round(x, 2)` on exact rational amounts. -/
def round2 (q : Money) : Money :=
  ((round (q * 100) : ℤ) : Money) / 100

/-- The twelve month numbers iterated by `get_monthly_report`. -/
def monthNums : List Int := [1, 2, 3, 4, 5, 6, 7, 8, 9, 10, 11, 12]

/-- English month names, as in the report. -/
def monthNames : List String :=
  ["January", "February", "March", "April", "May", "June",
   "July", "August", "September", "October", "November", "December"]

/-- `month_names[month_num - 1]`. -/
def monthName (m : Int) : String :=
  monthNames.getD (m - 1).toNat ""

/-- The exclusive upper bound of month `m` of `year`: the first day of the
next month, rolling December over to January of `year + 1`. -/
def monthUpperBound (year m : Int) : DateYM :=
  if m < 12 then ⟨year, m + 1⟩ else ⟨year + 1, 1⟩

/-- The `created_at` range filter of the monthly queries:
`gte: datetime(year, m, 1)` and `lt:` the next month's first day. -/
def inMonth (year m : Int) (t : DateYM) : Bool :=
  dateLe ⟨year, m⟩ t && dateLt t (monthUpperBound year m)

/-- The sale rows of month `m` of `year` (no role scoping in the query). -/
def monthSalesRows (year m : Int) (db : DB) : List Sale :=
  db.sales.filter (fun s => inMonth year m s.created_at)

/-- The expense rows of month `m` of `year` (no role scoping in the query). -/
def monthExpenseRows (year m : Int) (db : DB) : List Expense :=
  db.expenses.filter (fun e => inMonth year m e.created_at)

/-- Revenue of month `m` of `year`. -/
def monthRevenue (year m : Int) (db : DB) : Money :=
  revenueSum (monthSalesRows year m db)

/-- COGS of month `m` of `year`. -/
def monthCogs (year m : Int) (db : DB) : Money :=
  cogsSum (monthSalesRows year m db)

/-- Expense total of month `m` of `year`. -/
def monthExpenses (year m : Int) (db : DB) : Money :=
  expenseSum (monthExpenseRows year m db)

/-- Net profit of month `m` of `year`: revenue − COGS − expenses. -/
def monthProfit (year m : Int) (db : DB) : Money :=
  monthRevenue year m db - monthCogs year m db - monthExpenses year m db

/-- One `MonthlyData` entry of the report (figures rounded to 2 decimals). -/
structure MonthlyData where
  month : String
  month_number : Int
  revenue : Money
  expenses : Money
  profit : Money
deriving DecidableEq, Repr

/-- The `MonthlyReportResponse` model. -/
structure MonthlyReportResponse where
  months : List MonthlyData
  total_revenue : Money
  total_expenses : Money
  total_profit : Money
deriving DecidableEq, Repr

/-- `GET /reports/monthly/{year}` (`get_monthly_report`): twelve month
buckets of revenue/expenses/profit plus yearly totals; the running totals
of the loop are the sums of the twelve monthly figures, and
`total_profit = total_revenue - total_cogs - total_expenses`.  The
authenticated principal is received but never used in the queries. -/
def getMonthlyReport (year : Int) (_u : User) (db : DB) : MonthlyReportResponse :=
  { months := monthNums.map (fun m =>
      { month := monthName m
        month_number := m
        revenue := round2 (monthRevenue year m db)
        expenses := round2 (monthExpenses year m db)
        profit := round2 (monthProfit year m db) })
    total_revenue := round2 ((monthNums.map (fun m => monthRevenue year m db)).sum)
    total_expenses := round2 ((monthNums.map (fun m => monthExpenses year m db)).sum)
    total_profit := round2
      ((monthNums.map (fun m => monthRevenue year m db)).sum
        - (monthNums.map (fun m => monthCogs year m db)).sum
        - (monthNums.map (fun m => monthExpenses year m db)).sum) }

/-- The tuple of sale-row fields the update endpoint must never write:
id, invoice_no, product_name, category, cost_price snapshot, sold_by. -/
def frozenSaleFields (s : Sale) : Int × Option String × String × String × Money × String :=
  (s.id, s.invoice_no, s.product_name, s.category, s.cost_price, s.sold_by)

/-- Python's `" - " in s` membership test on the stored string. -/
def containsDelim : List Char → Bool
  | [] => false
  | c :: rest => delim.isPrefixOf (c :: rest) || containsDelim rest

/-- One operation of the stock ledger: a sale creation (checked debit) or a
sale deletion with inventory restore (credit). -/
inductive StockOp where
  | sale (u : User) (now : DateYM) (req : SalesCreate)
  | deleteRestore (u : User) (saleId : Int)

/-- Apply one stock operation to the store, keeping whatever state the
endpoint leaves behind (failures leave the store unchanged). -/
def applyStockOp (db : DB) (op : StockOp) : DB :=
  match op with
  | .sale u now req => (createSale u now req db).2
  | .deleteRestore u saleId => (deleteSale saleId true u db).2

/-- The store invariant of §8: no product row and no sale row holds a
negative quantity. -/
def InvNonneg (db : DB) : Prop :=
  (∀ p ∈ db.inventory, 0 ≤ p.quantity) ∧ (∀ s ∈ db.sales, 0 ≤ s.quantity)

/-- A money amount lying on the cent grid (an integer number of 1/100). -/
def IsCents (q : Money) : Prop :=
  ∃ n : ℤ, q = (n : Money) / 100

/-- Every monetary amount stored in the ledger lies on the cent grid. -/
def DBCents (db : DB) : Prop :=
  (∀ s ∈ db.sales, IsCents s.sale_price ∧ IsCents s.cost_price) ∧
  (∀ e ∈ db.expenses, IsCents e.amount)

/-- Example principals and instants shared by the concrete runs below. -/
def uAdmin : User := ⟨"1", "Admin", "admin"⟩

/-- A staff principal with id "2". -/
def uStaff : User := ⟨"2", "Staff", "staff"⟩

/-- January 2024, the `created_at` of the concrete runs. -/
def d0 : DateYM := ⟨2024, 1⟩

/-- Product A of the §8 bulk-sale scenario (on-hand 5). -/
def prodA : Product := ⟨1, "A", "Wood", 60, 5⟩

/-- Product B of the §8 bulk-sale scenario (on-hand 5). -/
def prodB : Product := ⟨2, "B", "Wood", 30, 5⟩

/-- Store for the §8 bulk-sale scenario. -/
def dbC6 : DB := ⟨7, 1, [prodA, prodB], [], []⟩

/-- The §8 bulk request: [(A, qty 2, price 100), (B, qty 1, price 50)]. -/
def reqC6 : BulkSalesCreate := ⟨"cust", "", "", "1", 0, [⟨1, 2, 100⟩, ⟨2, 1, 50⟩]⟩

/-- A FULL-paid sale carrying a non-zero stored advance_amount. -/
def sFullEx : Sale :=
  ⟨5, none, "c", "", "", "Chair", "Wood", 1, 60, 100, "d", "1", 30, "1", false, d0⟩

/-- An ADVANCE sale with revenue 100 and advance 30. -/
def sAdvEx : Sale :=
  ⟨6, none, "c", "", "", "Chair", "Wood", 1, 60, 100, "d", "2", 30, "1", false, d0⟩

/-- Store for the C3 witness: one Chair/Wood product with on-hand 5. -/
def dbC3 : DB := ⟨0, 10, [⟨1, "Chair", "Wood", 60, 5⟩], [], []⟩

/-- An operation sequence for the C3 witness. -/
def opsC3w : List StockOp :=
  [.sale uAdmin d0 ⟨"c", "", "", 1, 2, 10, "1", 0⟩,
   .deleteRestore uAdmin 10]

/-- A single-sale request asking for more than the on-hand 5. -/
def reqC3w : SalesCreate := ⟨"c", "", "", 1, 9, 10, "1", 0⟩

/-- The product row of `dbC3`. -/
def prodC3 : Product := ⟨1, "Chair", "Wood", 60, 5⟩

/-- A sale row owned by principal "1", January 2024, revenue 100. -/
def foreignSale : Sale :=
  ⟨1, none, "c", "", "", "Chair", "Wood", 1, 60, 100, "d", "1", 0, "1", false, ⟨2024, 1⟩⟩

/-- Store holding only `foreignSale` (owned by "1", not by `uStaff`). -/
def dbC2 : DB := ⟨0, 2, [], [foreignSale], []⟩

/-- Store with one cent-grid sale and one cent-grid expense. -/
def dbC4 : DB :=
  ⟨0, 3, [prodA],
   [⟨1, none, "c", "", "", "A", "Wood", 2, 60, 100, "d", "1", 0, "1", false, ⟨2024, 3⟩⟩],
   [⟨2, some "INV-000001", combineMaterialName "Oak" "Acme", 25, "1", 0, "d", false, none,
     "1", false, ⟨2024, 3⟩⟩]⟩

/-- A sale line under invoice "INV-000007" owned by staff principal "2". -/
def saleInv7 : Sale :=
  ⟨3, some "INV-000007", "c", "", "", "Chair", "Wood", 1, 60, 100, "d", "1", 0, "2", false, d0⟩

/-- An expense line under invoice "INV-000007" owned by staff principal "2". -/
def expInv7 : Expense :=
  ⟨4, some "INV-000007", combineMaterialName "Oak" "Acme", 25, "1", 0, "d", false, none, "2",
    false, d0⟩

/-- Store for the C7 witness: invoice INV-000007 has one sale line and one
expense line, both owned by staff "2". -/
def dbC7 : DB := ⟨8, 9, [prodA, prodB], [saleInv7], [expInv7]⟩

/-- Bulk sale payload appended to INV-000007 in the C7 witness. -/
def dataSC7 : BulkSalesCreate := ⟨"cust", "", "", "1", 0, [⟨1, 1, 80⟩]⟩

/-- Bulk expense payload appended to INV-000007 in the C7 witness. -/
def dataXC7 : BulkExpenseCreate := ⟨"1", 0, [⟨"Pine", "Acme", 12⟩]⟩

/-- The deletable sale of the C8 witness (Chair/Wood, quantity 2). -/
def saleC8 : Sale :=
  ⟨10, none, "c", "", "", "Chair", "Wood", 2, 60, 100, "d", "1", 0, "1", false, d0⟩

/-- Store for the C8 witness: the Chair/Wood product (on-hand 5) matches the
sale's denormalized snapshot. -/
def dbC8 : DB := ⟨0, 11, [⟨1, "Chair", "Wood", 60, 5⟩, prodB], [saleC8], []⟩

/-- An expense request whose material survives the round trip. -/
def reqC9 : ExpenseCreate := ⟨"Oak", "Acme", 25, "1", 0⟩

/-- A sale update changing customer, quantity, price and advance. -/
def updEx : SalesUpdate := ⟨some "newc", none, none, some 7, some 120, none, some 10⟩

end NisaWorld

deriving instance DecidableEq for Except

namespace NisaWorld

theorem findProduct_updateProductQty (inv : List Product) (pid : Int) (q : Int) (pid' : Int) :
    findProduct (updateProductQty inv pid q) pid' =
      (findProduct inv pid').map (fun p => if p.id == pid then { p with quantity := q } else p) := by
  induction inv with
  | nil => rfl
  | cons p rest ih =>
    have hid : (if (p.id == pid) = true then { p with quantity := q } else p).id = p.id := by
      by_cases hc : (p.id == pid) = true <;> simp [hc]
    have hpred : ((if (p.id == pid) = true then { p with quantity := q } else p).id == pid')
        = (p.id == pid') := by rw [hid]
    simp only [findProduct, updateProductQty, List.map_cons, List.find?] at ih ⊢
    rw [hpred]
    cases h' : (p.id == pid') with
    | true => rfl
    | false => exact ih

theorem invQty_updateProductQty_self (inv : List Product) {pid : Int} (q : Int)
    (h : (findProduct inv pid).isSome = true) :
    invQty (updateProductQty inv pid q) pid = q := by
  unfold invQty
  rw [findProduct_updateProductQty]
  obtain ⟨p, hp⟩ := Option.isSome_iff_exists.mp h
  have hb := @List.find?_some _ (fun x : Product => x.id == pid) p inv
    (by simpa [findProduct] using hp)
  have hpe : p.id = pid := eq_of_beq hb
  rw [hp]
  simp [hpe]

theorem invQty_updateProductQty_other (inv : List Product) {pid pid' : Int} (q : Int)
    (h : pid' ≠ pid) :
    invQty (updateProductQty inv pid q) pid' = invQty inv pid' := by
  unfold invQty
  rw [findProduct_updateProductQty]
  cases hf : findProduct inv pid' with
  | none => simp
  | some p =>
    have hpid : p.id = pid' := by
      have hb := @List.find?_some _ (fun x : Product => x.id == pid') p inv
        (by simpa [findProduct] using hf)
      exact eq_of_beq hb
    simp [hpid, h]

theorem findProduct_updateProductQty_isSome (inv : List Product) (pid : Int) (q : Int)
    (pid' : Int) :
    (findProduct (updateProductQty inv pid q) pid').isSome = (findProduct inv pid').isSome := by
  rw [findProduct_updateProductQty]
  cases findProduct inv pid' <;> simp

/-- C6: the claimed §8 outcome (stock A=3, B=4, aggregator revenue 250 over
the invoice's rows) does not occur — the bulk sale fails with the 500
raised while building the first row (BulkSalesCreate lacks entry_date)
before any insert or debit, leaving stock A=5, B=5 and no sale rows. -/
theorem claim_C6 :
    (createBulkSale uAdmin d0 reqC6 dbC6).1 = .error .internalError ∧
    invQty (createBulkSale uAdmin d0 reqC6 dbC6).2.inventory 1 = 5 ∧
    invQty (createBulkSale uAdmin d0 reqC6 dbC6).2.inventory 2 = 5 ∧
    (createBulkSale uAdmin d0 reqC6 dbC6).2.sales = [] := by
  with_unfolding_all decide

/-- C10: an update-sale request never touches the inventory or the expenses,
never modifies any sale row's id, invoice_no, product_name, category,
cost_price snapshot or sold_by, and leaves every non-targeted sale row
unchanged — even when the update changes the sale's quantity. -/
theorem claim_C10 (saleId : Int) (upd : SalesUpdate) (u : User) (db : DB) :
    (updateSale saleId upd u db).2.inventory = db.inventory ∧
    (updateSale saleId upd u db).2.expenses = db.expenses ∧
    (updateSale saleId upd u db).2.sales.map frozenSaleFields = db.sales.map frozenSaleFields ∧
    ∀ x ∈ db.sales, x.id ≠ saleId → x ∈ (updateSale saleId upd u db).2.sales := by
  unfold updateSale
  cases hf : db.sales.find? (fun s => s.id == saleId) with
  | none => exact ⟨rfl, rfl, rfl, fun x hx _ => hx⟩
  | some s =>
    dsimp only
    by_cases hperm : (u.role != "admin" && s.sold_by != u.id) = true
    · rw [if_pos hperm]
      exact ⟨rfl, rfl, rfl, fun x hx _ => hx⟩
    · rw [if_neg hperm]
      exact ⟨rfl, rfl, rfl, fun x hx _ => hx⟩

/-- C5: the dashboard's pending total is the pending sum over the visible
sales; a FULL (payment_type "1") sale contributes nothing to it regardless
of its stored advance_amount; an ADVANCE (payment_type "2") sale contributes
its revenue minus its advance_amount. -/
theorem claim_C5 (u : User) (db : DB) (s : Sale) (l : List Sale) :
    (getDashboardStats u db).total_pending = pendingSum (visibleSales u db) ∧
    (s.payment_type = "1" → pendingSum (s :: l) = pendingSum l) ∧
    (s.payment_type = "2" →
      pendingSum (s :: l) = (s.sale_price * (s.quantity : Money) - s.advance_amount) + pendingSum l) := by
  refine ⟨rfl, ?_, ?_⟩
  · intro h
    have : (s.payment_type == "2") = false := by simp [h]
    simp [pendingSum, List.filter_cons, this]
  · intro h
    have : (s.payment_type == "2") = true := by simp [h]
    simp [pendingSum, List.filter_cons, this]

/-- C5 witness: at concrete rows, the FULL sale with advance 30 contributes
0 to pending and the ADVANCE sale with revenue 100 and advance 30
contributes 70. -/
theorem claim_C5_witness :
    pendingSum [sFullEx] = pendingSum [] ∧
    pendingSum [sAdvEx] = (sAdvEx.sale_price * (sAdvEx.quantity : Money) - sAdvEx.advance_amount) + pendingSum [] ∧
    pendingSum [sAdvEx] = 70 :=
  ⟨(claim_C5 uAdmin dbC6 sFullEx []).2.1 rfl,
   (claim_C5 uAdmin dbC6 sAdvEx []).2.2 rfl,
   by with_unfolding_all decide⟩

theorem createSale_db_unchanged (u : User) (now : DateYM) (req : SalesCreate) (db : DB) :
    (createSale u now req db).2 = db := by
  simp only [createSale]
  cases findProduct db.inventory req.product_id with
  | none => rfl
  | some p =>
    dsimp only
    by_cases hlt : p.quantity < req.quantity
    · rw [if_pos hlt]
    · rw [if_neg hlt]

theorem applyStockOp_nonneg {db : DB} {op : StockOp}
    (hdb : InvNonneg db) : InvNonneg (applyStockOp db op) := by
  obtain ⟨hinv, hsal⟩ := hdb
  cases op with
  | sale u now req =>
    rw [applyStockOp, createSale_db_unchanged]
    exact ⟨hinv, hsal⟩
  | deleteRestore u saleId =>
    simp only [applyStockOp, deleteSale]
    cases hf : db.sales.find? (fun s => s.id == saleId) with
    | none => exact ⟨hinv, hsal⟩
    | some s =>
      dsimp only
      have hsq : 0 ≤ s.quantity := hsal s (List.mem_of_find?_eq_some hf)
      by_cases hperm : (u.role != "admin" && s.sold_by != u.id) = true
      · rw [if_pos hperm]
        exact ⟨hinv, hsal⟩
      · rw [if_neg hperm]
        simp only [if_true]
        cases hp : db.inventory.find? (fun p =>
            p.product_name == s.product_name && p.category == s.category) with
        | none =>
          refine ⟨hinv, ?_⟩
          intro x hx
          exact hsal x (List.mem_of_mem_filter hx)
        | some prod =>
          have hpq : 0 ≤ prod.quantity := hinv prod (List.mem_of_find?_eq_some hp)
          constructor
          · intro x hx
            simp only [updateProductQty, List.mem_map] at hx
            obtain ⟨y, hy, rfl⟩ := hx
            by_cases hc : (y.id == prod.id) = true
            · rw [if_pos hc]
              simp only
              omega
            · rw [if_neg hc]
              exact hinv y hy
          · intro x hx
            exact hsal x (List.mem_of_mem_filter hx)

theorem stockOps_preserve_nonneg :
    ∀ (ops : List StockOp) (db : DB), InvNonneg db →
      InvNonneg (ops.foldl applyStockOp db) := by
  intro ops
  induction ops with
  | nil => intro db hdb; exact hdb
  | cons op rest ih =>
    intro db hdb
    simp only [List.foldl_cons]
    exact ih (applyStockOp db op) (applyStockOp_nonneg hdb)

/-- C3: starting from a store whose product and sale rows carry nonnegative
quantities, any sequence of sale-creation (debit) and delete-with-restore
(credit) operations keeps every Product quantity nonnegative (sale creation
never mutates the store at all — the insufficient-stock check precedes the
entry_date raise — and restore credits only nonnegative stored sale
quantities); and a single debit request whose quantity exceeds the
product's on-hand fails with InsufficientStock leaving the store
unchanged. -/
theorem claim_C3 (ops : List StockOp) (db : DB) (u : User) (now : DateYM)
    (req : SalesCreate) (db' : DB) (p : Product)
    (hinv : InvNonneg db)
    (hfind : findProduct db'.inventory req.product_id = some p)
    (hstock : p.quantity < req.quantity) :
    (∀ q ∈ (ops.foldl applyStockOp db).inventory, 0 ≤ q.quantity) ∧
    createSale u now req db' = (.error .insufficientStock, db') := by
  refine ⟨(stockOps_preserve_nonneg ops db hinv).1, ?_⟩
  simp only [createSale, hfind]
  rw [if_pos hstock]

/-- C3 witness: the theorem applied to a concrete operation sequence and a
concrete over-quantity debit. -/
theorem claim_C3_witness :
    (∀ q ∈ (opsC3w.foldl applyStockOp dbC3).inventory, 0 ≤ q.quantity) ∧
    createSale uAdmin d0 reqC3w dbC3 = (.error .insufficientStock, dbC3) :=
  claim_C3 opsC3w dbC3 uAdmin d0 reqC3w dbC3 prodC3
    ⟨by with_unfolding_all decide, by with_unfolding_all decide⟩
    (by with_unfolding_all decide)
    (by with_unfolding_all decide)

theorem applySaleItems_ne_permissionDenied (items : List SaleItem) (db : DB) :
    (applySaleItems items db).1 ≠ .error .permissionDenied := by
  cases items with
  | nil => simp [applySaleItems]
  | cons it rest =>
    simp only [applySaleItems]
    cases hf : findProduct db.inventory it.product_id with
    | none => simp
    | some p =>
      dsimp only
      by_cases hq : p.quantity < it.quantity
      · rw [if_pos hq]
        simp
      · rw [if_neg hq]
        simp

theorem applyExpenseItems_ne_permissionDenied (items : List ExpenseItem) (db : DB) :
    (applyExpenseItems items db).1 ≠ .error .permissionDenied := by
  cases items with
  | nil => simp [applyExpenseItems]
  | cons it rest => simp [applyExpenseItems]

/-- C7: with a nonempty item payload, a staff append to an existing invoice
raises PermissionDenied exactly when no line of that invoice (sale table for
sale appends, expense table for expense appends) is owned by that staff
principal; an admin append never raises PermissionDenied. -/
theorem claim_C7 (invNo : String) (u : User) (now : DateYM)
    (dataS : BulkSalesCreate) (dataX : BulkExpenseCreate) (db : DB)
    (hS : dataS.items ≠ []) (hX : dataX.items ≠ []) :
    (u.role = "staff" →
      (((addSaleItemsToInvoice invNo u now dataS db).1 = .error .permissionDenied) ↔
        ¬ ∃ s ∈ db.sales, s.invoice_no = some invNo ∧ s.sold_by = u.id) ∧
      (((addExpenseItemsToInvoice invNo u now dataX db).1 = .error .permissionDenied) ↔
        ¬ ∃ e ∈ db.expenses, e.invoice_no = some invNo ∧ e.added_by = u.id)) ∧
    (u.role = "admin" →
      (addSaleItemsToInvoice invNo u now dataS db).1 ≠ .error .permissionDenied ∧
      (addExpenseItemsToInvoice invNo u now dataX db).1 ≠ .error .permissionDenied) := by
  have hSe : dataS.items.isEmpty = false := by
    cases hl : dataS.items with
    | nil => exact absurd hl hS
    | cons a l => rfl
  have hXe : dataX.items.isEmpty = false := by
    cases hl : dataX.items with
    | nil => exact absurd hl hX
    | cons a l => rfl
  constructor
  · intro hrole
    have hrb : (u.role == "staff") = true := by simp [hrole]
    constructor
    · simp only [addSaleItemsToInvoice, hSe, Bool.false_eq_true, if_false, hrb, Bool.true_and]
      cases hfind : db.sales.find? (fun s => s.invoice_no == some invNo && s.sold_by == u.id) with
      | none =>
        simp only [Option.isNone_none, if_true]
        rw [true_iff]
        rw [List.find?_eq_none] at hfind
        rintro ⟨s, hs, h1, h2⟩
        exact hfind s hs (by simp [h1, h2])
      | some s0 =>
        simp only [Option.isNone_some, Bool.false_eq_true, if_false]
        apply iff_of_false
        · exact applySaleItems_ne_permissionDenied dataS.items db
        · have hmem := List.mem_of_find?_eq_some hfind
          have hpred := @List.find?_some _
            (fun s => s.invoice_no == some invNo && s.sold_by == u.id) s0 db.sales hfind
          simp only [Bool.and_eq_true, beq_iff_eq] at hpred
          exact not_not_intro ⟨s0, hmem, hpred.1, hpred.2⟩
    · simp only [addExpenseItemsToInvoice, hXe, Bool.false_eq_true, if_false, hrb,
        Bool.true_and]
      cases hfind : db.expenses.find?
          (fun e => e.invoice_no == some invNo && e.added_by == u.id) with
      | none =>
        simp only [Option.isNone_none, if_true]
        rw [true_iff]
        rw [List.find?_eq_none] at hfind
        rintro ⟨e, he, h1, h2⟩
        exact hfind e he (by simp [h1, h2])
      | some e0 =>
        simp only [Option.isNone_some, Bool.false_eq_true, if_false]
        apply iff_of_false
        · exact applyExpenseItems_ne_permissionDenied dataX.items db
        · have hmem := List.mem_of_find?_eq_some hfind
          have hpred := @List.find?_some _
            (fun e => e.invoice_no == some invNo && e.added_by == u.id) e0 db.expenses hfind
          simp only [Bool.and_eq_true, beq_iff_eq] at hpred
          exact not_not_intro ⟨e0, hmem, hpred.1, hpred.2⟩
  · intro hrole
    have hrb : (u.role == "staff") = false := by simp [hrole]
    constructor
    · simp only [addSaleItemsToInvoice, hSe, Bool.false_eq_true, if_false, hrb,
        Bool.false_and]
      exact applySaleItems_ne_permissionDenied dataS.items db
    · simp only [addExpenseItemsToInvoice, hXe, Bool.false_eq_true, if_false, hrb,
        Bool.false_and]
      exact applyExpenseItems_ne_permissionDenied dataX.items db

/-- C7 witness: on the concrete invoice INV-000007 owned by staff "2", the
staff append is not rejected (a line is owned), matching the equivalence. -/
theorem claim_C7_witness :
    (((addSaleItemsToInvoice "INV-000007" uStaff d0 dataSC7 dbC7).1
        = .error .permissionDenied) ↔
      ¬ ∃ s ∈ dbC7.sales, s.invoice_no = some "INV-000007" ∧ s.sold_by = uStaff.id) ∧
    (((addExpenseItemsToInvoice "INV-000007" uStaff d0 dataXC7 dbC7).1
        = .error .permissionDenied) ↔
      ¬ ∃ e ∈ dbC7.expenses, e.invoice_no = some "INV-000007" ∧ e.added_by = uStaff.id) :=
  (claim_C7 "INV-000007" uStaff d0 dataSC7 dataXC7 dbC7
    (by with_unfolding_all decide) (by with_unfolding_all decide)).1 rfl

theorem deleteSale_restore_spec (saleId : Int) (u : User) (db : DB) (s : Sale)
    (hs : db.sales.find? (fun x => x.id == saleId) = some s)
    (hperm : u.role = "admin" ∨ s.sold_by = u.id) :
    (deleteSale saleId true u db).1 = .ok () ∧
    (deleteSale saleId true u db).2.sales = db.sales.filter (fun x => !(x.id == saleId)) ∧
    (deleteSale saleId true u db).2.expenses = db.expenses := by
  have hpb : (u.role != "admin" && s.sold_by != u.id) = false := by
    rcases hperm with h | h <;> simp [h]
  simp only [deleteSale, hs]
  rw [if_neg (by simp [hpb])]
  simp only [if_true]
  cases hp : db.inventory.find? (fun p =>
      p.product_name == s.product_name && p.category == s.category) with
  | none => refine ⟨?_, ?_, ?_⟩ <;> simp
  | some prod => refine ⟨?_, ?_, ?_⟩ <;> simp

/-- C8: deleting a sale with restore requested (as admin or owner): the sale
row is removed; when a product matching the sale's denormalized
(product_name, category) snapshot exists, the first such product's on-hand
is increased by the deleted sale's quantity and every other product row is
untouched; when none matches, the inventory is left entirely unchanged. -/
theorem claim_C8 (saleId : Int) (u : User) (db : DB) (s : Sale)
    (hs : db.sales.find? (fun x => x.id == saleId) = some s)
    (hperm : u.role = "admin" ∨ s.sold_by = u.id) :
    (deleteSale saleId true u db).1 = .ok () ∧
    (deleteSale saleId true u db).2.sales = db.sales.filter (fun x => !(x.id == saleId)) ∧
    (∀ p, db.inventory.find? (fun x =>
        x.product_name == s.product_name && x.category == s.category) = some p →
      invQty (deleteSale saleId true u db).2.inventory p.id = p.quantity + s.quantity ∧
      ∀ q ∈ db.inventory, q.id ≠ p.id → q ∈ (deleteSale saleId true u db).2.inventory) ∧
    (db.inventory.find? (fun x =>
        x.product_name == s.product_name && x.category == s.category) = none →
      (deleteSale saleId true u db).2.inventory = db.inventory) := by
  have hpb : (u.role != "admin" && s.sold_by != u.id) = false := by
    rcases hperm with h | h <;> simp [h]
  simp only [deleteSale, hs]
  rw [if_neg (by simp [hpb])]
  simp only [if_true]
  cases hp : db.inventory.find? (fun p =>
      p.product_name == s.product_name && p.category == s.category) with
  | none =>
    dsimp only
    refine ⟨by simp, by simp, ?_, fun _ => rfl⟩
    intro p hp'
    exact absurd hp' (by simp)
  | some prod =>
    dsimp only
    refine ⟨by simp, by simp, ?_, ?_⟩
    · intro p hp'
      have hpe : prod = p := by
        injection hp'
      subst hpe
      constructor
      · apply invQty_updateProductQty_self
        apply List.find?_isSome.mpr
        exact ⟨prod, List.mem_of_find?_eq_some hp, by simp⟩
      · intro q hq hne
        simp only [updateProductQty]
        refine List.mem_map.mpr ⟨q, hq, ?_⟩
        simp [beq_eq_false_iff_ne.mpr hne]
    · intro hnone
      exact absurd hnone (by simp)

set_option maxRecDepth 4000 in
/-- C8 witness: deleting the concrete Chair/Wood sale (quantity 2) with
restore as admin succeeds and removes the sale row. -/
theorem claim_C8_witness :
    dbC8.sales.find? (fun x => x.id == 10) = some saleC8 ∧
    (deleteSale 10 true uAdmin dbC8).1 = .ok () ∧
    (deleteSale 10 true uAdmin dbC8).2.sales
      = dbC8.sales.filter (fun x => !(x.id == 10)) :=
  ⟨by with_unfolding_all decide,
   (claim_C8 10 uAdmin dbC8 saleC8 (by with_unfolding_all decide) (Or.inl rfl)).1,
   (claim_C8 10 uAdmin dbC8 saleC8 (by with_unfolding_all decide) (Or.inl rfl)).2.1⟩

/-- C2 refutation: `get_monthly_report` applies no role scoping — a staff
principal's monthly report counts revenue from a sale owned by another
principal (100 here), although the staff principal owns no sale row at all. -/
theorem claim_C2_counterexample :
    uStaff.role = "staff" ∧
    (∀ s ∈ dbC2.sales, s.sold_by ≠ uStaff.id) ∧
    (getMonthlyReport 2024 uStaff dbC2).total_revenue = 100 ∧
    revenueSum (dbC2.sales.filter (fun s => s.sold_by == uStaff.id)) = 0 := by
  with_unfolding_all decide

/-- C2 (amended): the dashboard for a STAFF principal is unchanged by adding
sale/expense rows owned by other principals; its inventory_value always sums
over all product rows; but the monthly report is not role-scoped at all —
its output is the same for every principal. -/
theorem claim_C2 (u : User) (db : DB) (extraS : List Sale) (extraE : List Expense)
    (year : Int) (u' : User)
    (hrole : u.role = "staff")
    (hS : ∀ s ∈ extraS, s.sold_by ≠ u.id) (hE : ∀ e ∈ extraE, e.added_by ≠ u.id) :
    getDashboardStats u
        { db with sales := db.sales ++ extraS, expenses := db.expenses ++ extraE }
      = getDashboardStats u db ∧
    (getDashboardStats u db).inventory_value = inventoryValue db.inventory ∧
    getMonthlyReport year u db = getMonthlyReport year u' db := by
  refine ⟨?_, rfl, rfl⟩
  have hrb : (u.role == "staff") = true := by simp [hrole]
  have hfS : extraS.filter (fun s => s.sold_by == u.id) = [] := by
    apply List.filter_eq_nil_iff.mpr
    intro s hs
    simp [hS s hs]
  have hfE : extraE.filter (fun e => e.added_by == u.id) = [] := by
    apply List.filter_eq_nil_iff.mpr
    intro e he
    simp [hE e he]
  have hvs : visibleSales u
      { db with sales := db.sales ++ extraS, expenses := db.expenses ++ extraE }
      = visibleSales u db := by
    simp only [visibleSales, hrb, if_true]
    rw [List.filter_append, hfS, List.append_nil]
  have hve : visibleExpenses u
      { db with sales := db.sales ++ extraS, expenses := db.expenses ++ extraE }
      = visibleExpenses u db := by
    simp only [visibleExpenses, hrb, if_true]
    rw [List.filter_append, hfE, List.append_nil]
  simp only [getDashboardStats, hvs, hve]

theorem isCents_add {a b : Money} (ha : IsCents a) (hb : IsCents b) : IsCents (a + b) := by
  obtain ⟨m, rfl⟩ := ha
  obtain ⟨n, rfl⟩ := hb
  exact ⟨m + n, by push_cast; ring⟩

theorem isCents_sub {a b : Money} (ha : IsCents a) (hb : IsCents b) : IsCents (a - b) := by
  obtain ⟨m, rfl⟩ := ha
  obtain ⟨n, rfl⟩ := hb
  exact ⟨m - n, by push_cast; ring⟩

theorem isCents_mulInt {a : Money} (k : Int) (ha : IsCents a) : IsCents (a * (k : Money)) := by
  obtain ⟨m, rfl⟩ := ha
  exact ⟨m * k, by push_cast; ring⟩

theorem isCents_listSum (l : List Money) (h : ∀ x ∈ l, IsCents x) : IsCents l.sum := by
  induction l with
  | nil => exact ⟨0, by norm_num⟩
  | cons a t ih =>
    rw [List.sum_cons]
    exact isCents_add (h a (by simp)) (ih (fun x hx => h x (by simp [hx])))

theorem round2_isCents {q : Money} (h : IsCents q) : round2 q = q := by
  obtain ⟨n, rfl⟩ := h
  unfold round2
  have h100 : ((n : Money) / 100) * 100 = (n : Money) := by
    field_simp
  rw [h100, round_intCast]

theorem sum_map_sub3 {α : Type} (l : List α) (f g k : α → Money) :
    (l.map (fun x => f x - g x - k x)).sum
      = (l.map f).sum - (l.map g).sum - (l.map k).sum := by
  induction l with
  | nil => simp
  | cons a t ih =>
    simp only [List.map_cons, List.sum_cons, ih]
    ring

/-- C4: with every stored amount on the cent grid, the dashboard's
total_profit is total_sales − COGS − total_expenses; the monthly report's
yearly total_profit is total_revenue − total COGS − total_expenses; and the
yearly total_profit equals the sum of the twelve monthly profit figures. -/
theorem claim_C4 (u : User) (db : DB) (year : Int) (h : DBCents db) :
    ((getDashboardStats u db).total_profit
      = (getDashboardStats u db).total_sales - cogsSum (visibleSales u db)
        - (getDashboardStats u db).total_expenses) ∧
    ((getMonthlyReport year u db).total_profit
      = (getMonthlyReport year u db).total_revenue
        - (monthNums.map (fun m => monthCogs year m db)).sum
        - (getMonthlyReport year u db).total_expenses) ∧
    ((getMonthlyReport year u db).total_profit
      = ((getMonthlyReport year u db).months.map (fun md => md.profit)).sum) := by
  obtain ⟨hsal, hexp⟩ := h
  have hrev : ∀ m : Int, IsCents (monthRevenue year m db) := by
    intro m
    apply isCents_listSum
    intro x hx
    obtain ⟨s, hs, rfl⟩ := List.mem_map.mp hx
    exact isCents_mulInt s.quantity (hsal s (List.mem_of_mem_filter hs)).1
  have hcog : ∀ m : Int, IsCents (monthCogs year m db) := by
    intro m
    apply isCents_listSum
    intro x hx
    obtain ⟨s, hs, rfl⟩ := List.mem_map.mp hx
    exact isCents_mulInt s.quantity (hsal s (List.mem_of_mem_filter hs)).2
  have hexm : ∀ m : Int, IsCents (monthExpenses year m db) := by
    intro m
    apply isCents_listSum
    intro x hx
    obtain ⟨e, he, rfl⟩ := List.mem_map.mp hx
    exact hexp e (List.mem_of_mem_filter he)
  have hRsum : IsCents ((monthNums.map (fun m => monthRevenue year m db)).sum) := by
    apply isCents_listSum
    intro x hx
    obtain ⟨m, _, rfl⟩ := List.mem_map.mp hx
    exact hrev m
  have hCsum : IsCents ((monthNums.map (fun m => monthCogs year m db)).sum) := by
    apply isCents_listSum
    intro x hx
    obtain ⟨m, _, rfl⟩ := List.mem_map.mp hx
    exact hcog m
  have hEsum : IsCents ((monthNums.map (fun m => monthExpenses year m db)).sum) := by
    apply isCents_listSum
    intro x hx
    obtain ⟨m, _, rfl⟩ := List.mem_map.mp hx
    exact hexm m
  refine ⟨rfl, ?_, ?_⟩
  · show round2 ((monthNums.map (fun m => monthRevenue year m db)).sum
        - (monthNums.map (fun m => monthCogs year m db)).sum
        - (monthNums.map (fun m => monthExpenses year m db)).sum)
      = round2 ((monthNums.map (fun m => monthRevenue year m db)).sum)
        - (monthNums.map (fun m => monthCogs year m db)).sum
        - round2 ((monthNums.map (fun m => monthExpenses year m db)).sum)
    rw [round2_isCents (isCents_sub (isCents_sub hRsum hCsum) hEsum),
      round2_isCents hRsum, round2_isCents hEsum]
  · show round2 ((monthNums.map (fun m => monthRevenue year m db)).sum
        - (monthNums.map (fun m => monthCogs year m db)).sum
        - (monthNums.map (fun m => monthExpenses year m db)).sum)
      = ((monthNums.map (fun m =>
          ({ month := monthName m, month_number := m,
             revenue := round2 (monthRevenue year m db),
             expenses := round2 (monthExpenses year m db),
             profit := round2 (monthProfit year m db) } : MonthlyData))).map
          (fun md => md.profit)).sum
    rw [List.map_map]
    have hmap : (monthNums.map ((fun md : MonthlyData => md.profit) ∘ fun m =>
        ({ month := monthName m, month_number := m,
           revenue := round2 (monthRevenue year m db),
           expenses := round2 (monthExpenses year m db),
           profit := round2 (monthProfit year m db) } : MonthlyData)))
        = monthNums.map (fun m => monthProfit year m db) := by
      apply List.map_congr_left
      intro m _
      exact round2_isCents (isCents_sub (isCents_sub (hrev m) (hcog m)) (hexm m))
    rw [hmap]
    rw [show (fun m => monthProfit year m db)
        = (fun m => monthRevenue year m db - monthCogs year m db - monthExpenses year m db)
      from rfl]
    rw [sum_map_sub3]
    rw [round2_isCents (isCents_sub (isCents_sub hRsum hCsum) hEsum)]

theorem dbC4_cents : DBCents dbC4 := by
  constructor
  · intro s hs
    simp only [dbC4, List.mem_singleton] at hs
    subst hs
    exact ⟨⟨10000, by norm_num⟩, ⟨6000, by norm_num⟩⟩
  · intro e he
    simp only [dbC4, List.mem_singleton] at he
    subst he
    exact ⟨2500, by norm_num⟩

/-- C4 witness: at a concrete cent-grid store, the dashboard profit identity
and the months-sum identity hold. -/
theorem claim_C4_witness :
    ((getDashboardStats uAdmin dbC4).total_profit
      = (getDashboardStats uAdmin dbC4).total_sales - cogsSum (visibleSales uAdmin dbC4)
        - (getDashboardStats uAdmin dbC4).total_expenses) ∧
    ((getMonthlyReport 2024 uAdmin dbC4).total_profit
      = ((getMonthlyReport 2024 uAdmin dbC4).months.map (fun md => md.profit)).sum) :=
  ⟨(claim_C4 uAdmin dbC4 2024 dbC4_cents).1, (claim_C4 uAdmin dbC4 2024 dbC4_cents).2.2⟩

/-- C2 witness: adding the foreign-owned sale changes nothing in the staff
dashboard, and the monthly report output is identical for staff and admin. -/
theorem claim_C2_witness :
    (getDashboardStats uStaff
        { dbC2 with sales := dbC2.sales ++ [foreignSale], expenses := dbC2.expenses ++ [] }
      = getDashboardStats uStaff dbC2) ∧
    getMonthlyReport 2024 uStaff dbC2 = getMonthlyReport 2024 uAdmin dbC2 :=
  ⟨(claim_C2 uStaff dbC2 [foreignSale] [] 2024 uAdmin rfl
      (by with_unfolding_all decide) (by simp)).1,
   (claim_C2 uStaff dbC2 [foreignSale] [] 2024 uAdmin rfl
      (by with_unfolding_all decide) (by simp)).2.2⟩

/-- C10 witness: a concrete update that changes quantity and price leaves the
inventory and every frozen sale field untouched. -/
theorem claim_C10_witness :
    (updateSale 10 updEx uAdmin dbC8).2.inventory = dbC8.inventory ∧
    (updateSale 10 updEx uAdmin dbC8).2.sales.map frozenSaleFields
      = dbC8.sales.map frozenSaleFields :=
  ⟨(claim_C10 10 updEx uAdmin dbC8).1, (claim_C10 10 updEx uAdmin dbC8).2.2.1⟩

theorem isSuffixOf_cons_of {l m : List Char} (c : Char) (h : l.isSuffixOf m = true) :
    l.isSuffixOf (c :: m) = true := by
  rw [List.isSuffixOf_iff_suffix] at h ⊢
  exact h.trans (List.suffix_cons c m)

theorem splitOnce_append_delim (v : List Char) :
    ∀ m : List Char, containsDelim m = false → ([' ', '-'].isSuffixOf m) = false →
      splitOnce (m ++ delim ++ v) = some (m, v) := by
  intro m
  induction m with
  | nil =>
    intro _ _
    show splitOnce (delim ++ v) = some ([], v)
    simp [splitOnce, delim, List.isPrefixOf]
  | cons c m' ih =>
    intro h1 h2
    have h1p : (delim.isPrefixOf (c :: m') || containsDelim m') = false := by
      rw [containsDelim] at h1
      exact h1
    have h1' : delim.isPrefixOf (c :: m') = false ∧ containsDelim m' = false :=
      Bool.or_eq_false_iff.mp h1p
    have h2' : ([' ', '-'].isSuffixOf m') = false := by
      cases hx : ([' ', '-'].isSuffixOf m') with
      | false => rfl
      | true => exact absurd (isSuffixOf_cons_of c hx) (by simp [h2])
    have hpre : delim.isPrefixOf (c :: (m' ++ delim ++ v)) = false := by
      cases m' with
      | nil => simp [delim, List.isPrefixOf]
      | cons d m'' =>
        cases m'' with
        | nil =>
          cases hc : (' ' == c) with
          | false => simp [delim, List.isPrefixOf, hc]
          | true =>
            cases hd : ('-' == d) with
            | false => simp [delim, List.isPrefixOf, hc, hd]
            | true =>
              have hc' : c = ' ' := (eq_of_beq hc).symm
              have hd' : d = '-' := (eq_of_beq hd).symm
              subst hc'
              subst hd'
              exact absurd h2 (by decide)
        | cons e m''' =>
          have hfalse := h1'.1
          simp only [delim, List.isPrefixOf, Bool.and_true] at hfalse ⊢
          exact hfalse
    show splitOnce (c :: (m' ++ delim ++ v)) = some (c :: m', v)
    rw [splitOnce]
    simp only [hpre, Bool.false_eq_true, if_false]
    rw [ih h1'.2 h2']
    rfl

/-- C9 (amended): create_expense computes the concatenated
"material - vendor" string but raises while building the insert payload
(ExpenseCreate lacks entry_date), so it persists nothing and leaves the
store unchanged; and the read-side split restores the original pair from a
stored concatenation whenever the material name neither contains the
delimiter " - " nor ends with " -" (the stated claim requires only the
first condition; the counterexample shows that is not enough). -/
theorem claim_C9 (u : User) (now : DateYM) (req : ExpenseCreate) (db : DB)
    (h1 : containsDelim req.material_name.toList = false)
    (h2 : ([' ', '-'].isSuffixOf req.material_name.toList) = false) :
    createExpense u now req db = (.error .internalError, db) ∧
    splitMaterialName (combineMaterialName req.material_name req.vendor_name)
      = (req.material_name, req.vendor_name) := by
  constructor
  · rfl
  · unfold splitMaterialName
    have hlist : (combineMaterialName req.material_name req.vendor_name).toList
        = req.material_name.toList ++ delim ++ req.vendor_name.toList := by
      show (req.material_name ++ " - " ++ req.vendor_name).data
          = req.material_name.data ++ delim ++ req.vendor_name.data
      rw [String.data_append, String.data_append]
      rfl
    rw [hlist, splitOnce_append_delim req.vendor_name.toList req.material_name.toList h1 h2]
    rfl

/-- C9 refutation: material "a -" does not contain the literal delimiter
" - " yet the round trip returns ("a", "- v"), not the original pair, so
absence of the delimiter alone does not make the round trip lossless. -/
theorem claim_C9_counterexample :
    containsDelim ("a -" : String).toList = false ∧
    splitMaterialName (combineMaterialName "a -" "v") = ("a", "- v") ∧
    ("a", "- v") ≠ (("a -" : String), ("v" : String)) := by
  with_unfolding_all decide

/-- C9 witness: the concrete expense request ("Oak", "Acme") persists
nothing, and its concatenation round-trips through the read-side split. -/
theorem claim_C9_witness :
    createExpense uAdmin d0 reqC9 dbC6 = (.error .internalError, dbC6) ∧
    splitMaterialName (combineMaterialName reqC9.material_name reqC9.vendor_name)
      = (reqC9.material_name, reqC9.vendor_name) :=
  ⟨(claim_C9 uAdmin d0 reqC9 dbC6 (by with_unfolding_all decide)
      (by with_unfolding_all decide)).1,
   (claim_C9 uAdmin d0 reqC9 dbC6 (by with_unfolding_all decide)
      (by with_unfolding_all decide)).2⟩

end NisaWorld
